import Mathlib

/-!
Verification of the data-cleaning pass of `data_cleaning.py`.

The Python module reads a scraped CSV of aviation-accident records into a
pandas `DataFrame` of string (or missing) cells, normalizes the column
names, and derives structured columns from the free-text fields
(`fatalities`, `location`, `time`, `date`, `ground`).

The shallow embedding below models:
  * a cell as `Value` (`na` is a missing value / `NaN`; after cleaning a
    cell may also hold an integer or a parsed date);
  * a table column-major, as an ordered list of `(label, cells)` pairs,
    which is faithful because every operation in the source is
    column-wise (pandas row order is never touched);
  * Python exceptions as `Except PyErr`: a Lean `.error` marks exactly
    the places where the Python code raises (`int()` on a non-numeric
    capture raises `ValueError`, `parts[0]` on an empty list raises
    `IndexError`, selecting a duplicated column label yields a
    `DataFrame` whose truth-test / `to_numeric` raises, ...).

Unicode caveats: `str.strip`, `str.lower`, `\s`, `\d`, `\D` in Python are
Unicode-aware; the model restricts them to their ASCII behaviour, which
is exact on every input considered here (and on the scraped data).
-/

set_option autoImplicit false

namespace DataCleaning

/-- A pandas cell.  `na` is a missing value (`NaN`/`None`/`NaT`); raw
input cells are always `str` or `na` (the CSV is read with `dtype=str`);
derived cells may be integers (`int`) or parsed dates (`date`). -/
inductive Value where
  | na
  | str (s : String)
  | int (n : Int)
  | date (s : String)
deriving DecidableEq, Repr

/-- The Python exceptions the cleaning code can raise. -/
inductive PyErr where
  | valueError
  | indexError
  | typeError
  | keyError
deriving DecidableEq, Repr

/-! ### Python string primitives (ASCII model) -/

/-- Python `str.strip` whitespace class (`\s`), ASCII part. -/
def pyIsSpace (c : Char) : Bool :=
  c = ' ' ∨ c = '\t' ∨ c = '\n' ∨ c = '\r' ∨ c = '\x0b' ∨ c = '\x0c'

/-- The character class `[0-9a-zA-Z]` of the fallback column rule. -/
def pyIsAlnum (c : Char) : Bool :=
  c.isDigit ∨ ('a' ≤ c ∧ c ≤ 'z') ∨ ('A' ≤ c ∧ c ≤ 'Z')

/-- Python `str.strip()` on a character list. -/
def stripChars (l : List Char) : List Char :=
  ((l.dropWhile pyIsSpace).reverse.dropWhile pyIsSpace).reverse

/-- Python `str.strip()`. -/
def pyStrip (s : String) : String := ⟨stripChars s.data⟩

/-- Python `str.lower()` (ASCII). -/
def pyLower (s : String) : String := ⟨s.data.map Char.toLower⟩

/-- Python substring test `pat in hay` on character lists. -/
def listSubstr (pat : List Char) : List Char → Bool
  | [] => pat.isEmpty
  | c :: rest => pat.isPrefixOf (c :: rest) || listSubstr pat rest

/-- Python substring test `pat in hay` on strings. -/
def substr (pat hay : String) : Bool := listSubstr pat.data hay.data

/-- Python `str.startswith`. -/
def pyStartsWith (s p : String) : Bool := p.data.isPrefixOf s.data

/-- Python `s.split(",")` (empty pieces are kept, `"".split(",") = [""]`). -/
def splitCommaAux (cur : List Char) : List Char → List (List Char)
  | [] => [cur.reverse]
  | c :: rest =>
    if c = ',' then cur.reverse :: splitCommaAux [] rest
    else splitCommaAux (c :: cur) rest

/-- Python `s.split(",")` on strings. -/
def splitComma (s : String) : List String :=
  (splitCommaAux [] s.data).map fun l => ⟨l⟩

/-- Numeric value of a digit string (`int` on an all-digit string). -/
def digitsToNat (l : List Char) : Nat :=
  l.foldl (fun a c => a * 10 + (c.toNat - '0'.toNat)) 0

/-- Python `f"{n:02d}"` for `n ≤ 99`. -/
def pad2 (n : Nat) : String :=
  if n < 10 then "0" ++ toString n else toString n

/-! ### ColumnNormalizer (`normalize_columns`, lines 23-72) -/

/-- One pass of `re.sub(r"[^0-9a-zA-Z]+", "_", s)`: each maximal run of
non-alphanumeric characters becomes a single underscore.  The flag
records whether we are inside such a run. -/
def squashAux : Bool → List Char → List Char
  | _, [] => []
  | inRun, c :: rest =>
    if pyIsAlnum c then c :: squashAux false rest
    else if inRun then squashAux true rest
    else '_' :: squashAux true rest

/-- `re.sub(r"[^0-9a-zA-Z]+", "_", s)`. -/
def squashNonAlnum (l : List Char) : List Char := squashAux false l

/-- Python `str.strip("_")`. -/
def stripUnderscores (l : List Char) : List Char :=
  ((l.dropWhile (fun c => c = '_')).reverse.dropWhile (fun c => c = '_')).reverse

/-- The per-header mapping built by `normalize_columns`: strip, lower,
then the ordered first-match-wins rule chain of lines 35-68, with the
snake_case fallback of lines 66-68.  (The source strips once in the
first `rename` and once more when building `col_clean`; stripping is
idempotent, so a single strip here is faithful.) -/
def canonicalOf (col : String) : String :=
  let cl := pyLower (pyStrip col)
  if pyStartsWith cl "aboard" then "aboard"
  else if substr "type" cl then "aircraft_type"
  else if pyStartsWith cl "cn" then "cn_ln"
  else if cl = "date" then "date"
  else if cl = "detail_url" then "detail_url"
  else if substr "fatalit" cl then "fatalities"
  else if substr "flight" cl then "flight_no"
  else if cl = "ground" ∨ cl = "ground_fatalities" then "ground_fatalities"
  else if cl = "location" then "location"
  else if substr "operator" cl then "operator"
  else if substr "registr" cl then "registration"
  else if cl = "route" then "route"
  else if cl = "summary" then "summary"
  else if cl = "time" then "time"
  else if substr "year_page_url" cl then "year_page_url"
  else
    let tmp : String := ⟨stripUnderscores (squashNonAlnum cl.data)⟩
    if tmp = "" then cl else tmp

/-- A pandas `DataFrame`, column-major: ordered `(label, cells)` pairs.
pandas permits duplicate labels, and so does this representation. -/
abbrev Table := List (String × List Value)

/-- The ordered list of column labels of a table. -/
def labels (t : Table) : List String := t.map Prod.fst

/-- Every column of `t` has exactly `n` cells (the table has `n` rows). -/
def HasRows (t : Table) (n : Nat) : Prop := ∀ c ∈ t, (c.2).length = n

/-- `normalize_columns`: renames every column through `canonicalOf`.
pandas `DataFrame.rename` relabels columns in place; when two labels map
to the same target the result simply has duplicate labels (no column is
dropped, no error is raised). -/
def normalize_columns (t : Table) : Table :=
  t.map fun c => (canonicalOf c.1, c.2)

/-! ### FatalityParser (`parse_fatalities`, lines 75-104) -/

/-- `re.search(r"(\d+)", s)`: the leftmost maximal run of digits. -/
def firstDigitRun (s : List Char) : Option (List Char) :=
  match s.dropWhile (fun c => !c.isDigit) with
  | [] => none
  | c :: rest => some ((c :: rest).takeWhile Char.isDigit)

/-- Case-insensitive (`re.IGNORECASE`) literal match: drops `pat` from
the front of `s`, comparing lowercased text characters. -/
def dropPrefixCI : List Char → List Char → Option (List Char)
  | [], s => some s
  | _ :: _, [] => none
  | p :: ps, c :: cs => if c.toLower = p then dropPrefixCI ps cs else none

/-- Attempt `label\s*([0-9?]+)` (case-insensitive) anchored at the start
of `s`; returns the captured group.  Greedy `\s*` followed by
`[0-9?]+` is equivalent to this two-phase scan because the two character
classes are disjoint. -/
def matchLabelNumAt (label : List Char) (s : List Char) : Option (List Char) :=
  match dropPrefixCI label s with
  | none => none
  | some rest =>
    let g := (rest.dropWhile pyIsSpace).takeWhile fun c => c.isDigit || c = '?'
    if g.isEmpty then none else some g

/-- `re.search(label + r"\s*([0-9?]+)", s, re.IGNORECASE)`: leftmost
match wins, as in Python `re.search`. -/
def searchLabelNum (label : List Char) : List Char → Option (List Char)
  | [] => none
  | c :: rest =>
    match matchLabelNumAt label (c :: rest) with
    | some g => some g
    | none => searchLabelNum label rest

/-- Python `int(g)` on a captured `[0-9?]+` group: succeeds exactly when
the group is all digits, otherwise raises `ValueError` (e.g.
`int("1?")`). -/
def intOfGroup (g : List Char) : Except PyErr Nat :=
  if g.all Char.isDigit then .ok (digitsToNat g) else .error .valueError

/-- Lines 93-96 / 99-102: take the captured group after a label; `"?"`
means `None`; any other capture goes through `int` (which raises on a
digit/`?` mixture). -/
def groupValue : Option (List Char) → Except PyErr (Option Nat)
  | none => .ok none
  | some g =>
    if g = ['?'] then .ok none
    else match intOfGroup g with
      | .ok n => .ok (some n)
      | .error e => .error e

/-- `parse_fatalities` (lines 75-104).  `none` input is a missing cell
(`pd.isna`).  Returns `(total, passengers, crew)`. -/
def parse_fatalities (text : Option String) :
    Except PyErr (Option Nat × Option Nat × Option Nat) :=
  match text with
  | none => .ok (none, none, none)
  | some s =>
    let total := (firstDigitRun s.data).map digitsToNat
    match groupValue (searchLabelNum "passengers:".data s.data) with
    | .error e => .error e
    | .ok pax =>
      match groupValue (searchLabelNum "crew:".data s.data) with
      | .error e => .error e
      | .ok crew => .ok (total, pax, crew)

/-! ### LocationParser (`split_location`, lines 107-138) -/

/-- The country list of line 118 (substring test, comma-free branch). -/
def noCommaCountries : List String :=
  ["Germany", "France", "Belgium", "Italy", "England"]

/-- The `known_countries` set of line 129 (exact equality, two parts). -/
def knownCountriesList : List String :=
  ["England", "Germany", "France", "Belgium", "Italy"]

/-- Line 123: `[p.strip() for p in s.split(",") if p.strip()]` — split on
commas, strip each piece, drop the empty ones. -/
def locParts (s : String) : List String :=
  ((splitComma s).map pyStrip).filter fun p => p ≠ ""

/-- `split_location` (lines 107-138).  `none` input is a missing cell.
Returns `(city_or_region, state, country)`.  A string that contains a
comma but no non-empty piece reaches `parts[0]` on an empty list, which
raises `IndexError`. -/
def split_location (loc : Option String) :
    Except PyErr (Option String × Option String × Option String) :=
  match loc with
  | none => .ok (none, none, none)
  | some l =>
    let s := pyStrip l
    if substr "," s = false then
      if noCommaCountries.any (fun c => substr c s) then .ok (none, none, some s)
      else .ok (some s, none, none)
    else
      match locParts s with
      | [] => .error .indexError
      | [p] => .ok (some p, none, none)
      | [a, b] =>
        if b ∈ knownCountriesList then .ok (some a, none, some b)
        else .ok (some a, some b, none)
      | a :: b :: c :: rest => .ok (some a, some b, some ((a :: b :: c :: rest).getLastD ""))

/-! ### TimeParser (`_parse_time`, lines 157-181) -/

/-- `_parse_time` (lines 157-181).  `none` input is a missing cell.
Strip; `"?"` or empty gives `none`; remove non-digits (`re.sub(r"\D",
"", s)`); fewer than three digits gives `none`; three digits are
left-padded with `'0'`; more than four keep the last four; then
`HH`/`MM` bounds and zero-padded formatting. -/
def parse_time (t : Option String) : Option String :=
  match t with
  | none => none
  | some raw =>
    let s := pyStrip raw
    if s = "?" ∨ s = "" then none
    else
      let d := s.data.filter Char.isDigit
      if d.isEmpty then none
      else if d.length ≤ 2 then none
      else
        let d4 := if d.length = 3 then '0' :: d
                  else if 4 < d.length then d.drop (d.length - 4) else d
        let hh := digitsToNat (d4.take 2)
        let mm := digitsToNat (d4.drop 2)
        if 23 < hh ∨ 59 < mm then none
        else some (pad2 hh ++ ":" ++ pad2 mm)

/-- The TimeParser rule as worded in the specification (§4.4): null,
empty or `"?"` is null; strip non-digits; length at most 2 is null;
length 3 left-pads one `'0'`; length above 4 keeps the last 4 digits;
`HH` over 23 or `MM` over 59 is null; else zero-padded `"HH:MM"`.
Stated separately from `parse_time` so that the correspondence between
code and specification is a theorem. -/
def timeRuleSpec (t : Option String) : Option String :=
  match t with
  | none => none
  | some raw =>
    let s := pyStrip raw
    if s = "?" ∨ s = "" then none
    else
      let d := s.data.filter Char.isDigit
      if d.length ≤ 2 then none
      else
        let d4 := if d.length = 3 then '0' :: d
                  else if 4 < d.length then d.drop (d.length - 4) else d
        let hh := digitsToNat (d4.take 2)
        let mm := digitsToNat (d4.drop 2)
        if 23 < hh ∨ 59 < mm then none
        else some (pad2 hh ++ ":" ++ pad2 mm)

/-! ### DateParser and numeric coercion (external pandas calls) -/

/-- Python `str(value)` for the cell kinds that occur here.  (A `date`
cell renders as a timestamp string; no claim depends on its exact
spelling, and no reachable code path applies `str` to one.) -/
def pyStr : Value → String
  | .na => "nan"
  | .str s => s
  | .int n => toString n
  | .date s => s

/-- Modelled from the spec: `pd.to_datetime(..., errors="coerce")` is
external pandas code; §4.5 fixes only that it is a best-effort pure
parse that maps a missing value to null and never raises.  It is
modelled as a fixed total injection of the raw cell into a `date` cell;
its output is never re-inspected by the code under verification. -/
def pdToDatetime : Value → Value
  | .na => .na
  | .str s => .date s
  | .int n => .date (toString n)
  | .date s => .date s

/-- Modelled from the spec: `pd.to_numeric(..., errors="coerce")` is
external pandas code; §4.6 fixes only that non-numeric text becomes null
and that it never raises.  Modelled for integer text (optionally signed,
after stripping), which covers every value the cleaning pass feeds it;
non-integer text degrades to `na`. -/
def pyToNumeric : Value → Value
  | .na => .na
  | .int n => .int n
  | .date _ => .na
  | .str s =>
    match (pyStrip s).data with
    | '-' :: ds =>
      if ds.isEmpty then .na
      else if ds.all Char.isDigit then .int (-(digitsToNat ds : Int)) else .na
    | ds =>
      if ds.isEmpty then .na
      else if ds.all Char.isDigit then .int (digitsToNat ds) else .na

/-! ### Cell-level adapters (`Series.apply` element functions) -/

/-- The scalar seen by a parser applied to a cell: `pd.isna` catches a
missing value, everything else goes through `str(...)`. -/
def cellText : Value → Option String
  | .na => none
  | v => some (pyStr v)

/-- `parse_fatalities` on one cell. -/
def fatCell (v : Value) : Except PyErr (Option Nat × Option Nat × Option Nat) :=
  parse_fatalities (cellText v)

/-- `split_location` on one cell. -/
def locCell (v : Value) : Except PyErr (Option String × Option String × Option String) :=
  split_location (cellText v)

/-- `_parse_time` on one cell; a `None` result is a missing value in the
resulting column. -/
def timeCell (v : Value) : Value :=
  match parse_time (cellText v) with
  | none => .na
  | some s => .str s

/-- An `Option Nat` component of a fatality triple as a cell. -/
def optNatVal : Option Nat → Value
  | none => .na
  | some n => .int n

/-- An `Option String` component of a location triple as a cell. -/
def optStrVal : Option String → Value
  | none => .na
  | some s => .str s

/-! ### DataFrame operations -/

/-- `df[l]` where a single column is expected.  pandas returns a
`Series` when the label is unique; with duplicate labels it returns a
`DataFrame`, and every use site here then raises (`pd.to_datetime` on a
label-only `DataFrame`, assignment of a `DataFrame` into one column,
`bool(Series)` inside an applied parser, `pd.to_numeric(DataFrame)`) —
the caller names the exception via `e`.  A missing label would be a
`KeyError`, but every call is guarded by a membership test. -/
def getSingle (t : Table) (l : String) (e : PyErr) : Except PyErr (List Value) :=
  match t.filter (fun c => c.1 == l) with
  | [c] => .ok c.2
  | [] => .error .keyError
  | _ => .error e

/-- `df[l] = vs`: overwrite the cells of every column labelled `l`, or
append a new column at the right edge when the label is absent. -/
def setCol (t : Table) (l : String) (vs : List Value) : Table :=
  if l ∈ labels t then t.map (fun c => if c.1 = l then (l, vs) else c)
  else t ++ [(l, vs)]

/-- `Series.apply` with a function that can raise: cells are processed
in order and the first exception aborts the whole apply. -/
def exMapM {α β : Type} (f : α → Except PyErr β) : List α → Except PyErr (List β)
  | [] => .ok []
  | a :: rest =>
    match f a with
    | .error e => .error e
    | .ok b =>
      match exMapM f rest with
      | .error e => .error e
      | .ok bs => .ok (b :: bs)

/-! ### The cleaning steps (`clean_dataset`, lines 187-218) -/

/-- `parse_date_col` (lines 141-144). -/
def parse_date_col (t : Table) : Except PyErr Table :=
  if "date" ∈ labels t then
    match getSingle t "date" .valueError with
    | .error e => .error e
    | .ok ds => .ok (setCol t "date_parsed" (ds.map pdToDatetime))
  else .ok t

/-- `parse_time_col` (lines 147-184): copy the raw time column to
`time_raw`, then derive `time_hhmm`. -/
def parse_time_col (t : Table) : Except PyErr Table :=
  if "time" ∈ labels t then
    match getSingle t "time" .valueError with
    | .error e => .error e
    | .ok ts =>
      .ok (setCol (setCol t "time_raw" ts) "time_hhmm" (ts.map timeCell))
  else .ok t

/-- The fatalities block of `clean_dataset` (lines 197-205): apply the
fatality parser, attach the three component columns, then coerce each of
them with `pd.to_numeric`. -/
def fatalities_step (t : Table) : Except PyErr Table :=
  if "fatalities" ∈ labels t then
    match getSingle t "fatalities" .valueError with
    | .error e => .error e
    | .ok fs =>
      match exMapM fatCell fs with
      | .error e => .error e
      | .ok trips =>
        let t1 := setCol t "fatalities_total" (trips.map fun x => optNatVal x.1)
        let t2 := setCol t1 "fatalities_passengers" (trips.map fun x => optNatVal x.2.1)
        let t3 := setCol t2 "fatalities_crew" (trips.map fun x => optNatVal x.2.2)
        match getSingle t3 "fatalities_total" .typeError with
        | .error e => .error e
        | .ok n1 =>
          let t4 := setCol t3 "fatalities_total" (n1.map pyToNumeric)
          match getSingle t4 "fatalities_passengers" .typeError with
          | .error e => .error e
          | .ok n2 =>
            let t5 := setCol t4 "fatalities_passengers" (n2.map pyToNumeric)
            match getSingle t5 "fatalities_crew" .typeError with
            | .error e => .error e
            | .ok n3 => .ok (setCol t5 "fatalities_crew" (n3.map pyToNumeric))
  else .ok t

/-- The location block of `clean_dataset` (lines 208-212). -/
def location_step (t : Table) : Except PyErr Table :=
  if "location" ∈ labels t then
    match getSingle t "location" .valueError with
    | .error e => .error e
    | .ok ls =>
      match exMapM locCell ls with
      | .error e => .error e
      | .ok trips =>
        let t1 := setCol t "location_city" (trips.map fun x => optStrVal x.1)
        let t2 := setCol t1 "location_state" (trips.map fun x => optStrVal x.2.1)
        .ok (setCol t2 "location_country" (trips.map fun x => optStrVal x.2.2))
  else .ok t

/-- The ground-fatalities block of `clean_dataset` (lines 215-216). -/
def ground_step (t : Table) : Except PyErr Table :=
  if "ground_fatalities" ∈ labels t then
    match getSingle t "ground_fatalities" .typeError with
    | .error e => .error e
    | .ok gs => .ok (setCol t "ground_fatalities" (gs.map pyToNumeric))
  else .ok t

/-- `clean_dataset` (lines 187-218): normalize the columns, then run the
date, time, fatalities, location and ground steps in order.  An
exception in any step aborts the pass. -/
def clean_dataset (t : Table) : Except PyErr Table :=
  let t0 := normalize_columns t
  match parse_date_col t0 with
  | .error e => .error e
  | .ok t1 =>
    match parse_time_col t1 with
    | .error e => .error e
    | .ok t2 =>
      match fatalities_step t2 with
      | .error e => .error e
      | .ok t3 =>
        match location_step t3 with
        | .error e => .error e
        | .ok t4 => ground_step t4

/-- The nine derived column names attached by the cleaning pass. -/
def derivedNames : List String :=
  ["date_parsed", "time_raw", "time_hhmm",
   "fatalities_total", "fatalities_passengers", "fatalities_crew",
   "location_city", "location_state", "location_country"]

/-! ### Concrete tables used in the claim theorems -/

/-- A one-row raw table exercising every parsing step. -/
def c2Input : Table :=
  [("Date", [.str "07/12/1985"]),
   ("Time", [.str "1430"]),
   ("Location", [.str "Moscow"]),
   ("Operator", [.str "Aeroflot"]),
   ("Fatalities", [.str "2   (passengers:1  crew:1)"]),
   ("Ground", [.str "0"])]

/-- The output of the cleaning pass on `c2Input` (established by the
theorem for claim C2). -/
def c2Cleaned : Table :=
  [("date", [.str "07/12/1985"]),
   ("time", [.str "1430"]),
   ("location", [.str "Moscow"]),
   ("operator", [.str "Aeroflot"]),
   ("fatalities", [.str "2   (passengers:1  crew:1)"]),
   ("ground_fatalities", [.int 0]),
   ("date_parsed", [.date "07/12/1985"]),
   ("time_raw", [.str "1430"]),
   ("time_hhmm", [.str "14:30"]),
   ("fatalities_total", [.int 2]),
   ("fatalities_passengers", [.int 1]),
   ("fatalities_crew", [.int 1]),
   ("location_city", [.str "Moscow"]),
   ("location_state", [.na]),
   ("location_country", [.na])]

/-- A raw table whose only column is a ground-fatalities count. -/
def groundOnlyInput : Table := [("Ground", [.str "5"])]

/-- A raw table with two distinct headers that both normalize to
`fatalities`. -/
def collidingInput : Table :=
  [("Fatalities", [.str "1"]), ("Total fatalities", [.str "2"])]

/-- Two distinct raw headers for the column-collision claim. -/
def collidingHeaders : Table :=
  [("Fatality figures", [.str "1"]), ("Fatalities", [.str "2"])]

/-- A raw table whose raw header `date_parsed` collides with a derived
column name. -/
def shadowedInput : Table :=
  [("Date", [.str "x"]), ("date_parsed", [.str "keep"])]

/-- A raw table none of whose columns is touched by a parsing step. -/
def passThroughInput : Table := [("Route", [.str "A-B"])]

end DataCleaning

namespace DataCleaning

/-! ## Helper lemmas -/

/-- Pieces produced by `locParts` survive the non-empty filter. -/
theorem mem_locParts_ne_empty {s p : String} (hp : p ∈ locParts s) : p ≠ "" := by
  have := List.mem_filter.mp hp
  simpa using this.2

/-- The last element (with default) of a non-empty list is a member. -/
theorem cons_getLastD_mem {α : Type} (a d : α) (l : List α) :
    (a :: l).getLastD d ∈ a :: l := by
  induction l generalizing a with
  | nil => simp
  | cons b t ih =>
    rw [List.getLastD_cons]
    exact List.mem_cons_of_mem a (ih b)

/-- A column's label is among the table's labels. -/
theorem labels_mem {t : Table} {c : String × List Value} (hc : c ∈ t) :
    c.1 ∈ labels t :=
  List.mem_map_of_mem Prod.fst hc

/-- A label in `labels t` comes from some column of `t`. -/
theorem exists_of_labels_mem {t : Table} {l : String} (hl : l ∈ labels t) :
    ∃ c ∈ t, c.1 = l :=
  List.mem_map.mp hl

/-- A column whose label differs from the assigned one is untouched by
`setCol`. -/
theorem mem_setCol_of_ne {t : Table} {c : String × List Value} {l : String}
    {vs : List Value} (hc : c ∈ t) (hne : c.1 ≠ l) : c ∈ setCol t l vs := by
  unfold setCol
  split
  · exact List.mem_map.mpr ⟨c, hc, by simp [hne]⟩
  · exact List.mem_append_left _ hc

/-- Every column of `setCol t l vs` is an untouched column of `t` or the
assigned one. -/
theorem of_mem_setCol {t : Table} {c : String × List Value} {l : String}
    {vs : List Value} (hc : c ∈ setCol t l vs) : c ∈ t ∨ c = (l, vs) := by
  unfold setCol at hc
  split at hc
  · obtain ⟨a, ha, hfa⟩ := List.mem_map.mp hc
    by_cases h : a.1 = l
    · right; rw [← hfa]; simp [h]
    · left; rw [← hfa]; simpa [h] using ha
  · rcases List.mem_append.mp hc with h | h
    · exact Or.inl h
    · right; simpa using h

/-- Assigning to an existing label puts the assigned column in the
table. -/
theorem mem_setCol_self {t : Table} {l : String} {vs : List Value}
    (hl : l ∈ labels t) : (l, vs) ∈ setCol t l vs := by
  unfold setCol
  rw [if_pos hl]
  obtain ⟨c, hc, hfst⟩ := exists_of_labels_mem hl
  exact List.mem_map.mpr ⟨c, hc, by simp [hfst]⟩

/-- A successful single-column selection returns a column of the
table. -/
theorem getSingle_ok_mem {t : Table} {l : String} {e : PyErr} {vs : List Value}
    (h : getSingle t l e = .ok vs) : (l, vs) ∈ t := by
  unfold getSingle at h
  split at h
  · rename_i c hf
    injection h with h'
    have hc : c ∈ t.filter (fun c => c.1 == l) := by
      rw [hf]; exact List.mem_cons_self c []
    have hmem := (List.mem_filter.mp hc).1
    have hcl : c.1 = l := by simpa using (List.mem_filter.mp hc).2
    obtain ⟨c1, c2⟩ := c
    simp only at hcl h'
    rw [← hcl, ← h']
    exact hmem
  · exact Except.noConfusion h
  · exact Except.noConfusion h

/-- A successful single-column selection means the label is unique: any
column of `t` with that label carries the selected cells. -/
theorem getSingle_ok_unique {t : Table} {l : String} {e : PyErr}
    {vs ws : List Value} (h : getSingle t l e = .ok vs)
    (hw : (l, ws) ∈ t) : ws = vs := by
  unfold getSingle at h
  split at h
  · rename_i c hf
    injection h with h'
    have hmem : ((l, ws) : String × List Value) ∈ t.filter (fun c => c.1 == l) :=
      List.mem_filter.mpr ⟨hw, by simp⟩
    rw [hf] at hmem
    have : ((l, ws) : String × List Value) = c := by simpa using hmem
    rw [← h', ← this]
  · exact Except.noConfusion h
  · exact Except.noConfusion h

/-- `setCol` preserves the row count when the assigned cells have it. -/
theorem hasRows_setCol {t : Table} (l : String) (vs : List Value) {n : Nat}
    (ht : HasRows t n) (hv : vs.length = n) : HasRows (setCol t l vs) n := by
  intro c hc
  rcases of_mem_setCol hc with h | h
  · exact ht c h
  · rw [h]; exact hv

/-- Renaming preserves the row count. -/
theorem hasRows_normalize {t : Table} {n : Nat} (ht : HasRows t n) :
    HasRows (normalize_columns t) n := by
  intro c hc
  obtain ⟨a, ha, rfl⟩ := List.mem_map.mp hc
  exact ht a ha

/-- The cells selected from a table with `n` rows number `n`. -/
theorem getSingle_ok_length {t : Table} {l : String} {e : PyErr}
    {vs : List Value} {n : Nat} (h : getSingle t l e = .ok vs)
    (ht : HasRows t n) : vs.length = n :=
  ht (l, vs) (getSingle_ok_mem h)

/-- A successful exception-aware apply preserves the cell count. -/
theorem exMapM_ok_length {α β : Type} {f : α → Except PyErr β} {l : List α}
    {l' : List β} (h : exMapM f l = .ok l') : l'.length = l.length := by
  induction l generalizing l' with
  | nil =>
    unfold exMapM at h
    injection h with h'
    rw [← h']
    rfl
  | cons a rest ih =>
    unfold exMapM at h
    split at h
    · exact Except.noConfusion h
    · split at h
      · exact Except.noConfusion h
      · rename_i b hb bs hbs
        injection h with h'
        rw [← h']
        simp [ih hbs]

/-- What a successful date step does to memberships and row counts. -/
theorem date_step_ok {t t' : Table} (n : Nat) (h : parse_date_col t = .ok t') :
    (∀ c ∈ t, c.1 ≠ "date_parsed" → c ∈ t')
    ∧ (∀ c ∈ t', c ∈ t ∨ c.1 = "date_parsed")
    ∧ (HasRows t n → HasRows t' n) := by
  unfold parse_date_col at h
  split at h
  · split at h
    · exact Except.noConfusion h
    · rename_i ds hds
      injection h with h'
      subst h'
      refine ⟨fun c hc hne => mem_setCol_of_ne hc hne, fun c hc => ?_, fun ht => ?_⟩
      · rcases of_mem_setCol hc with h | h
        · exact Or.inl h
        · right; rw [h]
      · exact hasRows_setCol "date_parsed" _ ht
          (by rw [List.length_map]; exact getSingle_ok_length hds ht)
  · injection h with h'
    subst h'
    exact ⟨fun c hc _ => hc, fun c hc => Or.inl hc, fun ht => ht⟩

/-- What a successful time step does to memberships and row counts. -/
theorem time_step_ok {t t' : Table} (n : Nat) (h : parse_time_col t = .ok t') :
    (∀ c ∈ t, c.1 ≠ "time_raw" → c.1 ≠ "time_hhmm" → c ∈ t')
    ∧ (∀ c ∈ t', c ∈ t ∨ c.1 = "time_raw" ∨ c.1 = "time_hhmm")
    ∧ (HasRows t n → HasRows t' n) := by
  unfold parse_time_col at h
  split at h
  · split at h
    · exact Except.noConfusion h
    · rename_i ts hts
      injection h with h'
      subst h'
      refine ⟨fun c hc h1 h2 => mem_setCol_of_ne (mem_setCol_of_ne hc h1) h2,
              fun c hc => ?_, fun ht => ?_⟩
      · rcases of_mem_setCol hc with h | h
        · rcases of_mem_setCol h with h' | h'
          · exact Or.inl h'
          · right; left; rw [h']
        · right; right; rw [h]
      · have hlen : ts.length = n := getSingle_ok_length hts ht
        exact hasRows_setCol "time_hhmm" _ (hasRows_setCol "time_raw" _ ht hlen)
          (by rw [List.length_map]; exact hlen)
  · injection h with h'
    subst h'
    exact ⟨fun c hc _ _ => hc, fun c hc => Or.inl hc, fun ht => ht⟩

/-- What a successful fatalities step does to memberships and row
counts. -/
theorem fatalities_step_ok {t t' : Table} (n : Nat)
    (h : fatalities_step t = .ok t') :
    (∀ c ∈ t, c.1 ≠ "fatalities_total" → c.1 ≠ "fatalities_passengers" →
      c.1 ≠ "fatalities_crew" → c ∈ t')
    ∧ (∀ c ∈ t', c ∈ t ∨ c.1 = "fatalities_total" ∨ c.1 = "fatalities_passengers"
        ∨ c.1 = "fatalities_crew")
    ∧ (HasRows t n → HasRows t' n) := by
  unfold fatalities_step at h
  split at h
  · split at h
    · exact Except.noConfusion h
    · rename_i fs hfs
      split at h
      · exact Except.noConfusion h
      · rename_i trips htrips
        simp only [] at h
        split at h
        · exact Except.noConfusion h
        · rename_i n1 hn1
          split at h
          · exact Except.noConfusion h
          · rename_i n2 hn2
            split at h
            · exact Except.noConfusion h
            · rename_i n3 hn3
              injection h with h'
              subst h'
              refine ⟨fun c hc h1 h2 h3 => ?_, fun c hc => ?_, fun ht => ?_⟩
              · exact mem_setCol_of_ne (mem_setCol_of_ne (mem_setCol_of_ne
                  (mem_setCol_of_ne (mem_setCol_of_ne (mem_setCol_of_ne hc h1) h2) h3)
                  h1) h2) h3
              · rcases of_mem_setCol hc with h | h
                · rcases of_mem_setCol h with h | h
                  · rcases of_mem_setCol h with h | h
                    · rcases of_mem_setCol h with h | h
                      · rcases of_mem_setCol h with h | h
                        · rcases of_mem_setCol h with h | h
                          · exact Or.inl h
                          · right; left; rw [h]
                        · right; right; left; rw [h]
                      · right; right; right; rw [h]
                    · right; left; rw [h]
                  · right; right; left; rw [h]
                · right; right; right; rw [h]
              · have hflen : fs.length = n := getSingle_ok_length hfs ht
                have htlen : trips.length = n := by rw [exMapM_ok_length htrips, hflen]
                have ht1 := hasRows_setCol "fatalities_total"
                  (trips.map fun x => optNatVal x.1) ht (by simpa using htlen)
                have ht2 := hasRows_setCol "fatalities_passengers"
                  (trips.map fun x => optNatVal x.2.1) ht1 (by simpa using htlen)
                have ht3 := hasRows_setCol "fatalities_crew"
                  (trips.map fun x => optNatVal x.2.2) ht2 (by simpa using htlen)
                have hn1l : n1.length = n := getSingle_ok_length hn1 ht3
                have ht4 := hasRows_setCol "fatalities_total"
                  (n1.map pyToNumeric) ht3 (by simpa using hn1l)
                have hn2l : n2.length = n := getSingle_ok_length hn2 ht4
                have ht5 := hasRows_setCol "fatalities_passengers"
                  (n2.map pyToNumeric) ht4 (by simpa using hn2l)
                have hn3l : n3.length = n := getSingle_ok_length hn3 ht5
                exact hasRows_setCol "fatalities_crew" (n3.map pyToNumeric) ht5
                  (by simpa using hn3l)
  · injection h with h'
    subst h'
    exact ⟨fun c hc _ _ _ => hc, fun c hc => Or.inl hc, fun ht => ht⟩

/-- What a successful location step does to memberships and row
counts. -/
theorem location_step_ok {t t' : Table} (n : Nat)
    (h : location_step t = .ok t') :
    (∀ c ∈ t, c.1 ≠ "location_city" → c.1 ≠ "location_state" →
      c.1 ≠ "location_country" → c ∈ t')
    ∧ (∀ c ∈ t', c ∈ t ∨ c.1 = "location_city" ∨ c.1 = "location_state"
        ∨ c.1 = "location_country")
    ∧ (HasRows t n → HasRows t' n) := by
  unfold location_step at h
  split at h
  · split at h
    · exact Except.noConfusion h
    · rename_i ls hls
      split at h
      · exact Except.noConfusion h
      · rename_i trips htrips
        simp only [] at h
        injection h with h'
        subst h'
        refine ⟨fun c hc h1 h2 h3 =>
          mem_setCol_of_ne (mem_setCol_of_ne (mem_setCol_of_ne hc h1) h2) h3,
          fun c hc => ?_, fun ht => ?_⟩
        · rcases of_mem_setCol hc with h | h
          · rcases of_mem_setCol h with h | h
            · rcases of_mem_setCol h with h | h
              · exact Or.inl h
              · right; left; rw [h]
            · right; right; left; rw [h]
          · right; right; right; rw [h]
        · have hllen : ls.length = n := getSingle_ok_length hls ht
          have htlen : trips.length = n := by rw [exMapM_ok_length htrips, hllen]
          have ht1 := hasRows_setCol "location_city"
            (trips.map fun x => optStrVal x.1) ht (by simpa using htlen)
          have ht2 := hasRows_setCol "location_state"
            (trips.map fun x => optStrVal x.2.1) ht1 (by simpa using htlen)
          exact hasRows_setCol "location_country"
            (trips.map fun x => optStrVal x.2.2) ht2 (by simpa using htlen)
  · injection h with h'
    subst h'
    exact ⟨fun c hc _ _ _ => hc, fun c hc => Or.inl hc, fun ht => ht⟩

/-- What a successful ground step does: untouched columns survive, the
(unique) ground column is coerced in place, nothing else appears. -/
theorem ground_step_ok {t t' : Table} (n : Nat) (h : ground_step t = .ok t') :
    (∀ c ∈ t, c.1 ≠ "ground_fatalities" → c ∈ t')
    ∧ (∀ ws, ("ground_fatalities", ws) ∈ t →
        ("ground_fatalities", ws.map pyToNumeric) ∈ t')
    ∧ (∀ c ∈ t', c ∈ t ∨ (c.1 = "ground_fatalities" ∧ "ground_fatalities" ∈ labels t))
    ∧ (HasRows t n → HasRows t' n) := by
  unfold ground_step at h
  split at h
  · rename_i hg
    split at h
    · exact Except.noConfusion h
    · rename_i gs hgs
      injection h with h'
      subst h'
      refine ⟨fun c hc hne => mem_setCol_of_ne hc hne, fun ws hw => ?_,
              fun c hc => ?_, fun ht => ?_⟩
      · rw [getSingle_ok_unique hgs hw]
        exact mem_setCol_self hg
      · rcases of_mem_setCol hc with h | h
        · exact Or.inl h
        · right; rw [h]; exact ⟨rfl, hg⟩
      · exact hasRows_setCol "ground_fatalities" _ ht
          (by rw [List.length_map]; exact getSingle_ok_length hgs ht)
  · rename_i hg
    injection h with h'
    subst h'
    refine ⟨fun c hc _ => hc, fun ws hw => absurd (labels_mem hw) hg,
            fun c hc => Or.inl hc, fun ht => ht⟩

/-! ## Claim theorems -/

/-- Claim C1 (code_bug evidence): the spec requires every field parser to
degrade to null without raising, but `parse_fatalities` raises
`ValueError` when the digits after a `passengers:` label are mixed with
`'?'` (Python `int("1?")`), and `split_location` raises `IndexError` on
a string made only of commas and whitespace (`parts[0]` on an empty
list). -/
theorem c1_parsers_can_raise :
    parse_fatalities (some "1    (passengers:1?  crew:0)") = .error .valueError
    ∧ split_location (some ", ,") = .error .indexError := by
  constructor <;> rfl

/-- Claim C2 (code_bug evidence): the cleaning pass succeeds on the raw
table `c2Input`, but re-running it on the cleaned output raises instead
of leaving the derived fields unchanged — the second pass renames
`fatalities_total`, `fatalities_passengers`, `fatalities_crew` and
`ground_fatalities` back to the canonical label `fatalities` (they all
contain the substring `fatalit`), so `df["fatalities"]` selects five
duplicate columns and the fatalities step raises `ValueError`. -/
theorem c2_second_pass_raises :
    clean_dataset c2Input = .ok c2Cleaned
    ∧ clean_dataset c2Cleaned = .error .valueError := by
  constructor <;> rfl

/-- Claim C6: the three specification examples of the fatality parser:
`"22   (passengers:?  crew:?)"` gives `(22, null, null)`,
`"1    (passengers:1  crew:0)"` gives `(1, 1, 0)`, and a missing value
gives `(null, null, null)`. -/
theorem c6_fatality_examples :
    parse_fatalities (some "22   (passengers:?  crew:?)") = .ok (some 22, none, none)
    ∧ parse_fatalities (some "1    (passengers:1  crew:0)") = .ok (some 1, some 1, some 0)
    ∧ parse_fatalities none = .ok (none, none, none) := by
  refine ⟨rfl, rfl, rfl⟩

/-- Claim C5: the time parser agrees everywhere with the step rule
worded in the specification (strip; `"?"`/empty to null; drop
non-digits; length at most 2 to null; pad length 3; keep last 4 of a
longer string; bound `HH` by 23 and `MM` by 59; zero-padded `"HH:MM"`),
and satisfies the five specification examples. -/
theorem c5_time_rule :
    (∀ t, parse_time t = timeRuleSpec t)
    ∧ parse_time (some "700") = some "07:00"
    ∧ parse_time (some "2345") = some "23:45"
    ∧ parse_time (some "?") = none
    ∧ parse_time (some "99") = none
    ∧ parse_time (some "2500") = none := by
  refine ⟨?_, rfl, rfl, rfl, rfl, rfl⟩
  intro t
  cases t with
  | none => rfl
  | some raw =>
    simp only [parse_time, timeRuleSpec]
    by_cases h1 : pyStrip raw = "?" ∨ pyStrip raw = ""
    · simp [h1]
    · simp only [if_neg h1]
      generalize (pyStrip raw).data.filter Char.isDigit = d
      cases d with
      | nil => simp
      | cons c rest => simp

/-- Claim C4 (counterexample): the raw header `"Fatality Type"`
satisfies the `fatalit`-substring predicate and yet is mapped to
`aircraft_type`, because the `type`-substring rule precedes it in the
first-match-wins chain. -/
theorem c4_first_match_counterexample :
    substr "fatalit" (pyLower (pyStrip "Fatality Type")) = true
    ∧ canonicalOf "Fatality Type" = "aircraft_type" :=
  ⟨rfl, rfl⟩

/-- Claim C4 (amended): a raw header matching a rule predicate maps to
that rule's canonical name only when no earlier rule in the fixed order
matches; for the `fatalit` rule, any header whose stripped, lowercased
form contains `fatalit` and does not start with `aboard`, contain
`type`, or start with `cn` maps to `fatalities`, regardless of letter
case and surrounding whitespace. -/
theorem c4_amended (s : String)
    (hf : substr "fatalit" (pyLower (pyStrip s)) = true)
    (h1 : pyStartsWith (pyLower (pyStrip s)) "aboard" = false)
    (h2 : substr "type" (pyLower (pyStrip s)) = false)
    (h3 : pyStartsWith (pyLower (pyStrip s)) "cn" = false) :
    canonicalOf s = "fatalities" := by
  have hd : pyLower (pyStrip s) ≠ "date" := by
    intro h; rw [h] at hf; exact absurd hf (by decide)
  have hdu : pyLower (pyStrip s) ≠ "detail_url" := by
    intro h; rw [h] at hf; exact absurd hf (by decide)
  simp [canonicalOf, hf, h1, h2, h3, hd, hdu]

/-- Witness for the amended claim C4 at a concrete header. -/
theorem c4_amended_witness : canonicalOf "  Total Fatalities " = "fatalities" :=
  c4_amended "  Total Fatalities " rfl rfl rfl rfl

/-- Claim C7 (counterexample): two distinct raw headers mapping to the
canonical name `fatalities` are both retained — pandas `rename` with
colliding targets produces duplicate column labels, so the later column
does not overwrite the earlier one and the canonical name occurs twice
among the output columns. -/
theorem c7_no_overwrite_counterexample :
    normalize_columns collidingHeaders
      = [("fatalities", [.str "1"]), ("fatalities", [.str "2"])]
    ∧ (labels (normalize_columns collidingHeaders)).count "fatalities" = 2 :=
  ⟨rfl, rfl⟩

/-- Claim C7 (amended): when raw headers collide on a canonical name no
error is raised and no column is overwritten or dropped: the renamed
table keeps every column, in order, with its cells intact, under the
(possibly duplicated) canonical labels. -/
theorem c7_duplicates_retained (t : Table) :
    labels (normalize_columns t) = (labels t).map canonicalOf
    ∧ (normalize_columns t).map Prod.snd = t.map Prod.snd
    ∧ (normalize_columns t).length = t.length := by
  refine ⟨?_, ?_, ?_⟩ <;> simp [normalize_columns, labels]

/-- Claim C9 (counterexample): on an input of only whitespace the
location parser returns the empty string — not null — as the city
field. -/
theorem c9_empty_city_counterexample :
    split_location (some "   ") = .ok (some "", none, none) := rfl

/-- Claim C9 (amended): every field of a returned location triple is
null or a non-empty string, except the city field, which can be the
empty string, and only on a non-null input that strips to the empty
string (the comma-free fallback returns the whole stripped string as
city). -/
theorem c9_amended (loc : Option String) (c st co : Option String)
    (h : split_location loc = .ok (c, st, co)) :
    st ≠ some "" ∧ co ≠ some ""
    ∧ (c = some "" → ∃ l, loc = some l ∧ pyStrip l = "") := by
  cases loc with
  | none =>
    simp only [split_location, Except.ok.injEq, Prod.mk.injEq] at h
    obtain ⟨hc, hst, hco⟩ := h
    subst hc; subst hst; subst hco
    simp
  | some l =>
    simp only [split_location] at h
    split at h
    · split at h
      · rename_i hnc hany
        simp only [Except.ok.injEq, Prod.mk.injEq] at h
        obtain ⟨hc, hst, hco⟩ := h
        subst hc; subst hst; subst hco
        have hne : pyStrip l ≠ "" := by
          intro he
          rw [he] at hany
          exact absurd hany (by decide)
        simp [hne]
      · rename_i hnc hany
        simp only [Except.ok.injEq, Prod.mk.injEq] at h
        obtain ⟨hc, hst, hco⟩ := h
        subst hc; subst hst; subst hco
        refine ⟨by simp, by simp, ?_⟩
        intro hce
        exact ⟨l, rfl, by simpa using hce⟩
    · rename_i hcm
      split at h
      · exact absurd h (by simp)
      · rename_i p hp
        simp only [Except.ok.injEq, Prod.mk.injEq] at h
        obtain ⟨hc, hst, hco⟩ := h
        subst hc; subst hst; subst hco
        have hpne : p ≠ "" := mem_locParts_ne_empty (hp ▸ List.mem_cons_self p [])
        simp [hpne]
      · rename_i a b hp
        have hane : a ≠ "" := mem_locParts_ne_empty (hp ▸ List.mem_cons_self a [b])
        have hbne : b ≠ "" :=
          mem_locParts_ne_empty (hp ▸ List.mem_cons_of_mem a (List.mem_cons_self b []))
        split at h <;>
        · simp only [Except.ok.injEq, Prod.mk.injEq] at h
          obtain ⟨hc, hst, hco⟩ := h
          subst hc; subst hst; subst hco
          simp [hane, hbne]
      · rename_i a b c' rest hp
        have hbne : b ≠ "" :=
          mem_locParts_ne_empty
            (hp ▸ List.mem_cons_of_mem a (List.mem_cons_self b (c' :: rest)))
        have hlast : (a :: b :: c' :: rest).getLastD "" ∈ a :: b :: c' :: rest :=
          cons_getLastD_mem a "" (b :: c' :: rest)
        have hlne : (a :: b :: c' :: rest).getLastD "" ≠ "" :=
          mem_locParts_ne_empty
            (show (a :: b :: c' :: rest).getLastD "" ∈ locParts (pyStrip l) by
              rw [hp]; exact hlast)
        have hane : a ≠ "" := mem_locParts_ne_empty (hp ▸ List.mem_cons_self a (b :: c' :: rest))
        simp only [Except.ok.injEq, Prod.mk.injEq] at h
        obtain ⟨hc, hst, hco⟩ := h
        subst hc; subst hst; subst hco
        refine ⟨by simpa using hbne, by simpa using hlne, ?_⟩
        intro hce
        exact absurd (by simpa using hce) hane

/-- Claim C8: for a location string containing a comma, the parts are
the comma-split, stripped, non-empty pieces (`locParts`); with exactly
two parts the first is city/region and the second is country exactly
when it is in the known-country set and state otherwise; with three or
more parts the first is city/region, the second is state, the last is
country, and middle parts are discarded; and the specification example
`"Near Paris, France"` parses as city `"Near Paris"`, country
`"France"`. -/
theorem c8_comma_split :
    (∀ s a b, substr "," (pyStrip s) = true → locParts (pyStrip s) = [a, b] →
      split_location (some s)
        = .ok (some a, (if b ∈ knownCountriesList then none else some b),
               (if b ∈ knownCountriesList then some b else none)))
    ∧ (∀ s a b c rest, substr "," (pyStrip s) = true →
        locParts (pyStrip s) = a :: b :: c :: rest →
        split_location (some s)
          = .ok (some a, some b, some ((a :: b :: c :: rest).getLastD "")))
    ∧ split_location (some "Near Paris, France")
        = .ok (some "Near Paris", none, some "France") := by
  refine ⟨?_, ?_, rfl⟩
  · intro s a b hcm hp
    simp only [split_location]
    rw [if_neg (by simp [hcm]), hp]
    by_cases hb : b ∈ knownCountriesList <;> simp [hb]
  · intro s a b c rest hcm hp
    simp only [split_location]
    rw [if_neg (by simp [hcm]), hp]

/-- Witness for claim C8 at a concrete two-part input. -/
theorem c8_comma_split_witness :
    split_location (some "Q, Z")
      = .ok (some "Q", (if "Z" ∈ knownCountriesList then none else some "Z"),
             (if "Z" ∈ knownCountriesList then some "Z" else none)) :=
  c8_comma_split.1 "Q, Z" "Q" "Z" rfl rfl

/-- Claim C10: the known-country check is case-sensitive and asymmetric
between branches.  Comma-free branch: the whole stripped string becomes
country exactly when one of the five country names occurs as a substring
anywhere in it (so `"Off the coast of France"` is a country while
lowercase `"germany"` is a city).  Two-part branch: the second part
becomes country exactly when it equals a known country verbatim (so
`"West Germany"`, which merely contains one, and `"france"`, which
differs in case, become state). -/
theorem c10_country_check_asymmetry :
    (∀ s, substr "," (pyStrip s) = false →
      (split_location (some s) = .ok (none, none, some (pyStrip s))
        ↔ noCommaCountries.any (fun c => substr c (pyStrip s)) = true))
    ∧ (∀ s a b, substr "," (pyStrip s) = true → locParts (pyStrip s) = [a, b] →
      (split_location (some s) = .ok (some a, none, some b)
        ↔ b ∈ knownCountriesList))
    ∧ split_location (some "Off the coast of France")
        = .ok (none, none, some "Off the coast of France")
    ∧ split_location (some "germany") = .ok (some "germany", none, none)
    ∧ split_location (some "Neuss, West Germany")
        = .ok (some "Neuss", some "West Germany", none)
    ∧ split_location (some "Lyon, france")
        = .ok (some "Lyon", some "france", none) := by
  refine ⟨?_, ?_, rfl, rfl, rfl, rfl⟩
  · intro s hcm
    simp only [split_location]
    rw [if_pos hcm]
    by_cases hA : noCommaCountries.any (fun c => substr c (pyStrip s)) = true
    · simp [hA]
    · rw [if_neg hA]
      simp only [Bool.not_eq_true] at hA
      simp [hA]
  · intro s a b hcm hp
    simp only [split_location]
    rw [if_neg (by simp [hcm]), hp]
    by_cases hb : b ∈ knownCountriesList
    · simp [hb]
    · simp [hb]

/-- Witness for claim C10 at concrete inputs for both branch shapes. -/
theorem c10_asymmetry_witness :
    (split_location (some "Moscow") = .ok (none, none, some (pyStrip "Moscow"))
      ↔ noCommaCountries.any (fun c => substr c (pyStrip "Moscow")) = true) :=
  c10_country_check_asymmetry.1 "Moscow" rfl

/-- Claim C3 (counterexample): three ways the round-trip claim fails as
stated.  (1) the raw `ground_fatalities` value `"5"` is coerced to the
number `5` in place, so an original column's value does change; (2) a
table whose two headers both normalize to `fatalities` makes the pass
raise, producing no output rows at all; (3) a raw column named
`date_parsed` collides with a derived column and its original value
`"keep"` is overwritten. -/
theorem c3_roundtrip_counterexample :
    clean_dataset groundOnlyInput = .ok [("ground_fatalities", [.int 5])]
    ∧ clean_dataset collidingInput = .error .valueError
    ∧ clean_dataset shadowedInput
        = .ok [("date", [.str "x"]), ("date_parsed", [.date "x"])] :=
  ⟨rfl, rfl, rfl⟩

/-- Claim C3 (amended): provided no renamed header equals one of the
nine derived column names, a *successful* cleaning pass keeps exactly
one output row per input row; every original column survives under its
canonical name with its raw cells unchanged — except a
`ground_fatalities` column, whose cells are coerced to numeric in
place — and every output column is an original (renamed) column or a
derived one. -/
theorem c3_amended (t out : Table) (n : Nat)
    (hdisj : ∀ d ∈ derivedNames, d ∉ labels (normalize_columns t))
    (h : clean_dataset t = .ok out) :
    (HasRows t n → HasRows out n)
    ∧ (∀ name vs, (name, vs) ∈ t → canonicalOf name ≠ "ground_fatalities" →
        (canonicalOf name, vs) ∈ out)
    ∧ (∀ name vs, (name, vs) ∈ t → canonicalOf name = "ground_fatalities" →
        ("ground_fatalities", vs.map pyToNumeric) ∈ out)
    ∧ (∀ c ∈ out, c.1 ∈ labels (normalize_columns t) ∨ c.1 ∈ derivedNames) := by
  simp only [clean_dataset] at h
  split at h
  · exact Except.noConfusion h
  · rename_i t1 h1
    split at h
    · exact Except.noConfusion h
    · rename_i t2 h2
      split at h
      · exact Except.noConfusion h
      · rename_i t3 h3
        split at h
        · exact Except.noConfusion h
        · rename_i t4 h4
          obtain ⟨dFwd, dRev, dRows⟩ := date_step_ok n h1
          obtain ⟨tFwd, tRev, tRows⟩ := time_step_ok n h2
          obtain ⟨fFwd, fRev, fRows⟩ := fatalities_step_ok n h3
          obtain ⟨lFwd, lRev, lRows⟩ := location_step_ok n h4
          obtain ⟨gFwd, gMid, gRev, gRows⟩ := ground_step_ok n h
          have survive : ∀ name vs, (name, vs) ∈ t →
              (canonicalOf name, vs) ∈ t4 := by
            intro name vs hmem
            have hmem0 : (canonicalOf name, vs) ∈ normalize_columns t :=
              List.mem_map.mpr ⟨(name, vs), hmem, rfl⟩
            have hlab : canonicalOf name ∈ labels (normalize_columns t) :=
              labels_mem hmem0
            have hnd : ∀ d ∈ derivedNames, canonicalOf name ≠ d :=
              fun d hd' hEq => hdisj d hd' (hEq ▸ hlab)
            refine lFwd _ (fFwd _ (tFwd _ (dFwd _ hmem0 ?_) ?_ ?_) ?_ ?_ ?_) ?_ ?_ ?_
            · exact hnd "date_parsed" (by simp [derivedNames])
            · exact hnd "time_raw" (by simp [derivedNames])
            · exact hnd "time_hhmm" (by simp [derivedNames])
            · exact hnd "fatalities_total" (by simp [derivedNames])
            · exact hnd "fatalities_passengers" (by simp [derivedNames])
            · exact hnd "fatalities_crew" (by simp [derivedNames])
            · exact hnd "location_city" (by simp [derivedNames])
            · exact hnd "location_state" (by simp [derivedNames])
            · exact hnd "location_country" (by simp [derivedNames])
          have back : ∀ c, c ∈ t4 →
              c ∈ normalize_columns t ∨ c.1 ∈ derivedNames := by
            intro c hc
            rcases lRev c hc with hc3 | hL | hL | hL
            · rcases fRev c hc3 with hc2 | hF | hF | hF
              · rcases tRev c hc2 with hc1 | hT | hT
                · rcases dRev c hc1 with hc0 | hD
                  · exact Or.inl hc0
                  · right; rw [hD]; simp [derivedNames]
                · right; rw [hT]; simp [derivedNames]
                · right; rw [hT]; simp [derivedNames]
              · right; rw [hF]; simp [derivedNames]
              · right; rw [hF]; simp [derivedNames]
              · right; rw [hF]; simp [derivedNames]
            · right; rw [hL]; simp [derivedNames]
            · right; rw [hL]; simp [derivedNames]
            · right; rw [hL]; simp [derivedNames]
          refine ⟨?_, ?_, ?_, ?_⟩
          · intro ht
            exact gRows (lRows (fRows (tRows (dRows (hasRows_normalize ht)))))
          · intro name vs hmem hne
            exact gFwd _ (survive name vs hmem) hne
          · intro name vs hmem hEq
            have := survive name vs hmem
            rw [hEq] at this
            exact gMid vs this
          · intro c hc
            rcases gRev c hc with hc4 | ⟨hcg, hg4⟩
            · rcases back c hc4 with h0 | hd'
              · exact Or.inl (labels_mem h0)
              · exact Or.inr hd'
            · obtain ⟨c', hc', hfst⟩ := exists_of_labels_mem hg4
              rcases back c' hc' with h0 | hd'
              · left; rw [hcg, ← hfst]; exact labels_mem h0
              · rw [hfst] at hd'
                exact absurd hd' (by simp [derivedNames])

/-- Witness for the amended claim C3 on a concrete pass-through
table. -/
theorem c3_amended_witness :
    (canonicalOf "Route", [Value.str "A-B"])
      ∈ [(("route" : String), [Value.str "A-B"])] :=
  (c3_amended passThroughInput [("route", [Value.str "A-B"])] 1
      (by decide) rfl).2.1 "Route" [Value.str "A-B"]
    (by simp [passThroughInput]) (by decide)

/-- Witness for the amended claim C9 at a concrete input. -/
theorem c9_amended_witness :
    (none : Option String) ≠ some "" ∧ (some "France" : Option String) ≠ some ""
    ∧ ((some "Near Paris" : Option String) = some ""
        → ∃ l, (some "Near Paris, France" : Option String) = some l ∧ pyStrip l = "") :=
  c9_amended (some "Near Paris, France") (some "Near Paris") none (some "France") rfl

end DataCleaning
